import Mathlib

/-!
Verification development for the tower-a2a client library.

The definitions below are a shallow embedding of the Rust sources:
JSON values are modelled by an inductive `Json` type (serde_json::Value with
numbers restricted to integers, which is all the embedded code inspects),
fallible code returns `Except`, and the tower `Service` stack is modelled by
pure functions from requests to `Except A2AError A2AResponse`.
-/

set_option autoImplicit false

namespace A2A

/-- JSON values (serde_json::Value). Numbers are modelled as integers: the
embedded code only ever reads strings, booleans and the i64 JSON-RPC error
code from payloads, so the float case is not needed. -/
inductive Json where
  | null
  | bool (b : Bool)
  | num (n : Int)
  | str (s : String)
  | arr (items : List Json)
  | obj (fields : List (String × Json))

/-- Lookup of a key in the field list of a JSON object (serde_json map get). -/
def lookupField : List (String × Json) → String → Option Json
  | [], _ => none
  | (k, v) :: rest, key => if k = key then some v else lookupField rest key

/-- Value::get on an object; None on any other JSON shape. -/
def Json.getField : Json → String → Option Json
  | .obj fields, key => lookupField fields key
  | _, _ => none

/-- Value::as_str. -/
def Json.asStr : Json → Option String
  | .str s => some s
  | _ => none

/-- Value::as_bool. -/
def Json.asBool : Json → Option Bool
  | .bool b => some b
  | _ => none

/-- Value::as_i64 (on the integer model). -/
def Json.asNum : Json → Option Int
  | .num n => some n
  | _ => none

/-- Task status lifecycle enum (src/src/protocol/task.rs, `TaskStatus`). -/
inductive TaskStatus where
  | Submitted
  | Working
  | InputRequired
  | AuthRequired
  | Completed
  | Failed
  | Cancelled
  | Rejected
deriving DecidableEq, Repr

/-- Wire form of a status: serde kebab-case serialization of `TaskStatus`. -/
def TaskStatus.toWire : TaskStatus → String
  | .Submitted => "submitted"
  | .Working => "working"
  | .InputRequired => "input-required"
  | .AuthRequired => "auth-required"
  | .Completed => "completed"
  | .Failed => "failed"
  | .Cancelled => "cancelled"
  | .Rejected => "rejected"

/-- Kebab-case deserialization of `TaskStatus`. -/
def TaskStatus.fromWire : String → Option TaskStatus
  | "submitted" => some .Submitted
  | "working" => some .Working
  | "input-required" => some .InputRequired
  | "auth-required" => some .AuthRequired
  | "completed" => some .Completed
  | "failed" => some .Failed
  | "cancelled" => some .Cancelled
  | "rejected" => some .Rejected
  | _ => none

/-- TaskStatus::is_terminal (src/src/protocol/task.rs). -/
def TaskStatus.is_terminal (s : TaskStatus) : Bool :=
  match s with
  | .Completed | .Failed | .Cancelled | .Rejected => true
  | _ => false

/-- SSE streaming event (src/src/codec/sse.rs, `SseEvent`). -/
structure SseEvent where
  kind : String
  payload : Json
  final_event : Bool

/-- SseEvent::is_terminal, translated verbatim from src/src/codec/sse.rs
lines 28-39 (note: the source matches the spelling "canceled"). -/
def SseEvent.is_terminal (e : SseEvent) : Bool :=
  if e.final_event then
    true
  else
    match (e.payload.getField "state").bind Json.asStr with
    | some state =>
        state == "completed" || state == "failed" || state == "canceled"
          || state == "rejected"
    | none => false

/-- SseEvent::is_error (src/src/codec/sse.rs lines 42-48). -/
def SseEvent.is_error (e : SseEvent) : Bool :=
  match (e.payload.getField "state").bind Json.asStr with
  | some state => state == "failed" || state == "canceled" || state == "rejected"
  | none => false

/-- File content of a file part (src/src/protocol/message.rs, `FileContent`). -/
structure FileContent where
  media_type : Option String
  name : String
  file_with_uri : Option String
  file_with_bytes : Option String

/-- Message role (src/src/protocol/message.rs, `Role`). -/
inductive Role where
  | User
  | Agent
deriving DecidableEq, Repr

/-- Part of a message: serde(untagged) union (src/src/protocol/message.rs,
`MessagePart`). -/
inductive MessagePart where
  | Text (text : String)
  | File (file : FileContent)
  | Data (data : Json)

/-- Message (src/src/protocol/message.rs). The metadata and extensions
HashMap of String to Value fields are modelled as optional field lists. -/
structure Message where
  role : Role
  parts : List MessagePart
  message_id : Option String
  task_id : Option String
  context_id : Option String
  metadata : Option (List (String × Json))
  extensions : Option (List (String × Json))

/-- Structured task error (src/src/protocol/error.rs, `TaskError`). -/
structure TaskError where
  code : String
  message : String
  details : Option Json

/-- Artifact (src/src/protocol/mod.rs). -/
structure Artifact where
  artifact_id : String
  name : Option String
  description : Option String
  parts : List MessagePart
  metadata : Option Json
  extensions : List String

/-- Task (src/src/protocol/task.rs). The chrono timestamps are modelled by
their wire form (RFC3339 strings). Modelled from the spec: the `artifacts`
list is absent from the `Task` declaration in src/src/protocol/task.rs, but
src/src/layer/validation.rs reads `task.artifacts` and the compliance tests
build tasks with artifacts, so the field (a list, empty by default) is added
here following the spec's Task description. -/
structure Task where
  id : String
  status : TaskStatus
  input : Message
  output : Option Message
  error : Option TaskError
  created_at : String
  updated_at : Option String
  context_id : Option String
  artifacts : List Artifact

/-- Task::is_terminal (src/src/protocol/task.rs lines 60-68). -/
def Task.is_terminal (t : Task) : Bool :=
  match t.status with
  | .Completed | .Failed | .Cancelled | .Rejected => true
  | _ => false

/-- Agent capability flags (src/src/protocol/agent.rs, `AgentCapabilities`). -/
structure AgentCapabilities where
  streaming : Bool
  push_notifications : Bool
  task_management : Bool
  multi_turn : Bool
  supported_part_types : Option (List String)

/-- Endpoint configuration (src/src/protocol/agent.rs, `EndpointConfig`). -/
structure EndpointConfig where
  url : String
  endpoint_type : String
  preferred : Bool

/-- Agent card (src/src/protocol/agent.rs). Uuids are modelled by their wire
strings; the `authentication` security-scheme list and the `scopes` list are
retained as raw JSON because no claim inspects their internal structure. The
endpoints HashMap is modelled as an association list. -/
structure AgentCard where
  id : Option String
  organization_id : Option String
  name : String
  description : String
  capabilities : AgentCapabilities
  authentication : Option Json
  endpoints : List (String × EndpointConfig)
  version : Option String
  documentation_url : Option String
  scopes : Option Json

/-- Error taxonomy (src/src/protocol/error.rs, `A2AError`). The wrapped
serde_json error of the Serialization variant is modelled by its message. -/
inductive A2AError where
  | Transport (msg : String)
  | Protocol (msg : String)
  | Validation (msg : String)
  | Auth (msg : String)
  | Task (source : TaskError)
  | Serialization (msg : String)
  | Timeout
  | TaskNotFound (task_id : String)
  | AgentNotFound (agent_url : String)
  | RateLimitExceeded
  | Other (msg : String)

/-- Abstract operations (src/src/protocol/operation.rs, `A2AOperation`). -/
inductive A2AOperation where
  | SendMessage (message : Message) (stream : Bool)
      (context_id : Option String) (task_id : Option String)
  | GetTask (task_id : String)
  | ListTasks (status : Option TaskStatus) (limit : Option Nat)
      (offset : Option Nat) (next_token : Option String)
  | CancelTask (task_id : String)
  | DiscoverAgent
  | SubscribeTask (task_id : String)
  | RegisterWebhook (url : String) (events : List String) (auth : Option String)

/-- Service response union (src/src/service/response.rs, `A2AResponse`). -/
inductive A2AResponse where
  | Task (task : Task)
  | TaskList (tasks : List Task) (total : Nat) (next_token : Option String)
  | AgentCard (card : AgentCard)
  | Empty

/-- Authentication credentials (src/src/layer/auth.rs, `AuthCredentials`). -/
inductive AuthCredentials where
  | Bearer (token : String)
  | ApiKey (key : String) (header : String)
  | Basic (username : String) (password : String)

/-- Request context (src/src/service/request.rs, `RequestContext`). The
Duration timeout is modelled in milliseconds; the metadata HashMap is an
association list. -/
structure RequestContext where
  agent_url : String
  auth : Option AuthCredentials
  timeout : Option Nat
  metadata : List (String × String)

/-- Service request (src/src/service/request.rs, `A2ARequest`). -/
structure A2ARequest where
  operation : A2AOperation
  context : RequestContext

/-- Per-part loop body of A2AValidationService::validate_request
(src/src/layer/validation.rs lines 56-81): the first failing part
short-circuits with a Validation error. -/
def validateParts : List MessagePart → Except A2AError Unit
  | [] => .ok ()
  | part :: rest =>
    match part with
    | .Text text =>
        if text = "" then .error (.Validation "Text part cannot be empty")
        else validateParts rest
    | .File file =>
        if file.name = "" then .error (.Validation "File name cannot be empty")
        else if file.file_with_uri.isNone && file.file_with_bytes.isNone then
          .error (.Validation "File must have either URI or bytes content")
        else validateParts rest
    | .Data _ => validateParts rest

/-- Operation match of A2AValidationService::validate_request
(src/src/layer/validation.rs lines 46-120). -/
def validate_request_operation (operation : A2AOperation) : Except A2AError Unit :=
  match operation with
    | .SendMessage message _ _ _ =>
        if message.parts.isEmpty then
          .error (.Validation "Message must have at least one part")
        else validateParts message.parts
    | .GetTask task_id =>
        if task_id = "" then .error (.Validation "Task ID cannot be empty")
        else .ok ()
    | .CancelTask task_id =>
        if task_id = "" then .error (.Validation "Task ID cannot be empty")
        else .ok ()
    | .ListTasks _ limit offset _ =>
        let limitResult : Except A2AError Unit :=
          match limit with
          | some limit_val =>
              if limit_val = 0 then
                .error (.Validation "Limit must be greater than 0")
              else if limit_val > 1000 then
                .error (.Validation "Limit cannot exceed 1000")
              else .ok ()
          | none => .ok ()
        match limitResult with
        | .error e => .error e
        | .ok () =>
          match offset with
          | some offset_val =>
              if offset_val > 1000000 then .error (.Validation "Offset is too large")
              else .ok ()
          | none => .ok ()
    | .RegisterWebhook url events _ =>
        if url = "" then .error (.Validation "Webhook URL cannot be empty")
        else if events.isEmpty then
          .error (.Validation "Webhook must subscribe to at least one event")
        else .ok ()
    | _ => .ok ()

/-- A2AValidationService::validate_request (src/src/layer/validation.rs
lines 45-128): operation-specific checks, then the agent-url check. -/
def validate_request (req : A2ARequest) : Except A2AError Unit :=
  match validate_request_operation req.operation with
  | .error e => .error e
  | .ok () =>
    if req.context.agent_url = "" then
      .error (.Validation "Agent URL cannot be empty")
    else .ok ()

/-- A2AValidationService::validate_response (src/src/layer/validation.rs
lines 131-176). -/
def validate_response (resp : A2AResponse) : Except A2AError Unit :=
  match resp with
  | .Task task =>
      if task.id = "" then .error (.Validation "Task ID cannot be empty")
      else if task.input.parts.isEmpty then
        .error (.Validation "Task input must have at least one part")
      else if task.status == .Completed && task.artifacts.isEmpty
          && task.error.isNone then
        .error (.Validation "Completed task must have artifacts or error")
      else if task.status == .Failed && task.error.isNone then
        .error (.Validation "Failed task must have an error")
      else .ok ()
  | .AgentCard card =>
      if card.name = "" then .error (.Validation "Agent name cannot be empty")
      else if card.endpoints.isEmpty then
        .error (.Validation "Agent card must have at least one endpoint")
      else .ok ()
  | _ => .ok ()

/-- A2AValidationService::call (src/src/layer/validation.rs lines 192-207):
validate the request, run the inner service, validate the response and
forward it. The inner tower service is modelled as a function. -/
def A2AValidationService.call (inner : A2ARequest → Except A2AError A2AResponse)
    (req : A2ARequest) : Except A2AError A2AResponse :=
  match validate_request req with
  | .error e => .error e
  | .ok () =>
    match inner req with
    | .error e => .error e
    | .ok response =>
      match validate_response response with
      | .error e => .error e
      | .ok () => .ok response

/-- AuthService::call (src/src/layer/auth.rs lines 123-129): overwrite the
context's auth field with the configured credentials and delegate to the
inner service. -/
def AuthService.call (credentials : AuthCredentials)
    (inner : A2ARequest → Except A2AError A2AResponse)
    (req : A2ARequest) : Except A2AError A2AResponse :=
  inner { req with context := { req.context with auth := some credentials } }

/-- Result of parsing a response body: the byte buffer is either empty,
valid JSON, or non-empty bytes that serde_json fails to parse. -/
inductive Body where
  | empty
  | json (j : Json)
  | malformed

/-- Transport response (src/src/transport/mod.rs, `TransportResponse`), with
the body abstracted to its JSON parse outcome. -/
structure TransportResponse where
  status : Nat
  headers : List (String × String)
  body : Body

/-- TransportResponse::is_success: 2xx status. -/
def TransportResponse.is_success (r : TransportResponse) : Bool :=
  decide (200 ≤ r.status ∧ r.status < 300)

/-- A2AProtocolService::handle_error_response (src/src/service/core.rs lines
93-118): map a non-2xx response to an error, keyed on the status code when
the body is JSON with a string message field, else a fallback Transport
error. -/
def handle_error_response (r : TransportResponse) : A2AError :=
  match r.body with
  | .json j =>
    match (j.getField "message").bind Json.asStr with
    | some message =>
        if r.status = 401 ∨ r.status = 403 then .Auth message
        else if r.status = 404 then
          match (j.getField "taskId").bind Json.asStr with
          | some task_id => .TaskNotFound task_id
          | none => .Protocol message
        else if r.status = 429 then .RateLimitExceeded
        else .Transport ("HTTP " ++ toString r.status ++ ": " ++ message)
    | none => .Transport ("HTTP error: " ++ toString r.status)
  | _ => .Transport ("HTTP error: " ++ toString r.status)

/-- A2AProtocolService::parse_transport_response (src/src/service/core.rs
lines 78-90): error mapping on non-2xx, else delegate the body to the
codec's decode_response (passed as a function). -/
def parse_transport_response (r : TransportResponse)
    (decode : Body → A2AOperation → Except A2AError A2AResponse)
    (op : A2AOperation) : Except A2AError A2AResponse :=
  if r.is_success then decode r.body op
  else .error (handle_error_response r)

/-- Serde-derived decoding of a required String field: present with a string
value, anything else (missing, null, wrong type) is an error. -/
def reqString (j : Json) (key : String) : Except String String :=
  match j.getField key with
  | some (.str s) => .ok s
  | some _ => .error ("invalid type for field " ++ key)
  | none => .error ("missing field " ++ key)

/-- Serde-derived decoding of an optional String field: missing or null is
None, a string is Some, any other value is an error. -/
def optString (j : Json) (key : String) : Except String (Option String) :=
  match j.getField key with
  | none => .ok none
  | some .null => .ok none
  | some (.str s) => .ok (some s)
  | some _ => .error ("invalid type for field " ++ key)

/-- Serde-derived decoding of an Option Value field: missing or null is
None (serde maps JSON null to None before Value sees it). -/
def optValue (j : Json) (key : String) : Option Json :=
  match j.getField key with
  | none => none
  | some .null => none
  | some v => some v

/-- Serde-derived decoding of a defaulted bool field (serde default attr):
missing is false, a boolean is itself, anything else is an error. -/
def boolFieldD (j : Json) (key : String) : Except String Bool
  :=
  match j.getField key with
  | none => .ok false
  | some (.bool b) => .ok b
  | some _ => .error ("invalid type for field " ++ key)

/-- Untagged Text variant attempt: a map whose "text" entry is a string
(unknown extra fields are ignored by the serde struct deserializer). -/
def tryTextVariant (j : Json) : Except String MessagePart :=
  match j with
  | .obj _ =>
    match j.getField "text" with
    | some (.str s) => .ok (.Text s)
    | _ => .error "no match for variant Text"
  | _ => .error "no match for variant Text"

/-- FileContent deserialization (serde camelCase rename: mediaType,
fileWithUri, fileWithBytes; name is required). -/
def FileContent.deserialize (j : Json) : Except String FileContent :=
  match j with
  | .obj _ => do
    let media_type ← optString j "mediaType"
    let name ← reqString j "name"
    let file_with_uri ← optString j "fileWithUri"
    let file_with_bytes ← optString j "fileWithBytes"
    .ok { media_type, name, file_with_uri, file_with_bytes }
  | _ => .error "expected an object for FileContent"

/-- Untagged File variant attempt: a map whose "file" entry decodes as a
FileContent. -/
def tryFileVariant (j : Json) : Except String MessagePart :=
  match j with
  | .obj _ =>
    match j.getField "file" with
    | some v =>
      match FileContent.deserialize v with
      | .ok file => .ok (.File file)
      | .error e => .error e
    | none => .error "no match for variant File"
  | _ => .error "no match for variant File"

/-- Untagged Data variant attempt: a map containing a "data" entry (any
value, including null, is a serde_json Value). -/
def tryDataVariant (j : Json) : Except String MessagePart :=
  match j with
  | .obj _ =>
    match j.getField "data" with
    | some v => .ok (.Data v)
    | none => .error "no match for variant Data"
  | _ => .error "no match for variant Data"

/-- Serde(untagged) deserialization of MessagePart
(src/src/protocol/message.rs lines 222-242): the variants are tried in
declaration order Text, File, Data, and the first that matches wins; only
when none matches does deserialization fail. -/
def MessagePart.deserialize (j : Json) : Except String MessagePart :=
  match tryTextVariant j with
  | .ok p => .ok p
  | .error _ =>
    match tryFileVariant j with
    | .ok p => .ok p
    | .error _ =>
      match tryDataVariant j with
      | .ok p => .ok p
      | .error _ =>
        .error "data did not match any variant of untagged enum MessagePart"

/-- Serde-derived decoding of an optional metadata or extensions map. -/
def optJsonMap (j : Json) (key : String) :
    Except String (Option (List (String × Json))) :=
  match j.getField key with
  | none => .ok none
  | some .null => .ok none
  | some (.obj fields) => .ok (some fields)
  | some _ => .error ("invalid type for field " ++ key)

/-- Role deserialization (serde lowercase rename). -/
def Role.deserialize (j : Json) : Except String Role :=
  match j with
  | .str "user" => .ok .User
  | .str "agent" => .ok .Agent
  | _ => .error "invalid role"

/-- Message deserialization (serde derive on src/src/protocol/message.rs
`Message`: role and parts are required, the id fields are camelCase and
optional, metadata and extensions are optional maps). -/
def Message.deserialize (j : Json) : Except String Message :=
  match j with
  | .obj _ => do
    let role ←
      match j.getField "role" with
      | some v => Role.deserialize v
      | none => .error "missing field role"
    let parts ←
      match j.getField "parts" with
      | some (.arr items) => items.mapM MessagePart.deserialize
      | some _ => .error "invalid type for field parts"
      | none => .error "missing field parts"
    let message_id ← optString j "messageId"
    let task_id ← optString j "taskId"
    let context_id ← optString j "contextId"
    let metadata ← optJsonMap j "metadata"
    let extensions ← optJsonMap j "extensions"
    .ok { role, parts, message_id, task_id, context_id, metadata, extensions }
  | _ => .error "expected an object for Message"

/-- TaskError deserialization (src/src/protocol/error.rs: code and message
required, details optional). -/
def TaskError.deserialize (j : Json) : Except String TaskError :=
  match j with
  | .obj _ => do
    let code ← reqString j "code"
    let message ← reqString j "message"
    .ok { code, message, details := optValue j "details" }
  | _ => .error "expected an object for TaskError"

/-- Artifact deserialization (src/src/protocol/mod.rs: artifact_id and parts
required, name and description and metadata optional, extensions a list of
strings). -/
def Artifact.deserialize (j : Json) : Except String Artifact :=
  match j with
  | .obj _ => do
    let artifact_id ← reqString j "artifact_id"
    let name ← optString j "name"
    let description ← optString j "description"
    let parts ←
      match j.getField "parts" with
      | some (.arr items) => items.mapM MessagePart.deserialize
      | some _ => .error "invalid type for field parts"
      | none => .error "missing field parts"
    let extensions ←
      match j.getField "extensions" with
      | some (.arr items) => items.mapM (fun v =>
          match Json.asStr v with
          | some s => Except.ok s
          | none => Except.error "invalid type for field extensions")
      | some _ => .error "invalid type for field extensions"
      | none => .error "missing field extensions"
    .ok { artifact_id, name, description, parts,
          metadata := optValue j "metadata", extensions }
  | _ => .error "expected an object for Artifact"

/-- Task deserialization (serde derive on src/src/protocol/task.rs `Task`:
id, status, input, createdAt required; output, error, updatedAt, contextId
optional; timestamps modelled as their RFC3339 wire strings). The modelled
artifacts field defaults to the empty list when absent. -/
def Task.deserialize (j : Json) : Except String Task :=
  match j with
  | .obj _ => do
    let id ← reqString j "id"
    let statusStr ← reqString j "status"
    let status ←
      match TaskStatus.fromWire statusStr with
      | some s => Except.ok s
      | none => Except.error "invalid task status"
    let input ←
      match j.getField "input" with
      | some v => Message.deserialize v
      | none => .error "missing field input"
    let output ←
      match optValue j "output" with
      | some v => (Message.deserialize v).map some
      | none => Except.ok none
    let error ←
      match optValue j "error" with
      | some v => (TaskError.deserialize v).map some
      | none => Except.ok none
    let created_at ← reqString j "createdAt"
    let updated_at ← optString j "updatedAt"
    let context_id ← optString j "contextId"
    let artifacts ←
      match j.getField "artifacts" with
      | none => Except.ok []
      | some (.arr items) => items.mapM Artifact.deserialize
      | some _ => .error "invalid type for field artifacts"
    .ok { id, status, input, output, error, created_at, updated_at,
          context_id, artifacts }
  | _ => .error "expected an object for Task"

/-- TaskListResponse deserialization (src/src/protocol/task.rs: tasks and
total required, nextToken optional). -/
def decodeTaskList (j : Json) :
    Except String (List Task × Nat × Option String) :=
  match j with
  | .obj _ => do
    let tasks ←
      match j.getField "tasks" with
      | some (.arr items) => items.mapM Task.deserialize
      | some _ => .error "invalid type for field tasks"
      | none => .error "missing field tasks"
    let total ←
      match j.getField "total" with
      | some (.num n) =>
          if 0 ≤ n then Except.ok n.toNat
          else Except.error "invalid type for field total"
      | some _ => .error "invalid type for field total"
      | none => .error "missing field total"
    let next_token ← optString j "nextToken"
    .ok (tasks, total, next_token)
  | _ => .error "expected an object for TaskListResponse"

/-- AgentCapabilities deserialization (src/src/protocol/agent.rs: all flags
serde-defaulted to false, supportedPartTypes optional). -/
def AgentCapabilities.deserialize (j : Json) :
    Except String AgentCapabilities :=
  match j with
  | .obj _ => do
    let streaming ← boolFieldD j "streaming"
    let push_notifications ← boolFieldD j "pushNotifications"
    let task_management ← boolFieldD j "taskManagement"
    let multi_turn ← boolFieldD j "multiTurn"
    let supported_part_types ←
      match j.getField "supportedPartTypes" with
      | none => Except.ok none
      | some .null => Except.ok none
      | some (.arr items) => (items.mapM (fun v =>
          match Json.asStr v with
          | some s => Except.ok s
          | none => Except.error "invalid type for field supportedPartTypes")).map some
      | some _ => .error "invalid type for field supportedPartTypes"
    .ok { streaming, push_notifications, task_management, multi_turn,
          supported_part_types }
  | _ => .error "expected an object for AgentCapabilities"

/-- EndpointConfig deserialization (url and type required, preferred
serde-defaulted to false). -/
def EndpointConfig.deserialize (j : Json) : Except String EndpointConfig :=
  match j with
  | .obj _ => do
    let url ← reqString j "url"
    let endpoint_type ← reqString j "type"
    let preferred ← boolFieldD j "preferred"
    .ok { url, endpoint_type, preferred }
  | _ => .error "expected an object for EndpointConfig"

/-- AgentCard deserialization (src/src/protocol/agent.rs: name, description,
capabilities and endpoints required; the rest optional). The authentication
and scopes payloads are retained as raw JSON: their SecurityScheme internals
are not inspected by any embedded code path. -/
def AgentCard.deserialize (j : Json) : Except String AgentCard :=
  match j with
  | .obj _ => do
    let id ← optString j "id"
    let organization_id ← optString j "organizationId"
    let name ← reqString j "name"
    let description ← reqString j "description"
    let capabilities ←
      match j.getField "capabilities" with
      | some v => AgentCapabilities.deserialize v
      | none => .error "missing field capabilities"
    let endpoints ←
      match j.getField "endpoints" with
      | some (.obj fields) => fields.mapM (fun f => do
          let cfg ← EndpointConfig.deserialize f.2
          Except.ok (f.1, cfg))
      | some _ => .error "invalid type for field endpoints"
      | none => .error "missing field endpoints"
    let version ← optString j "version"
    let documentation_url ← optString j "documentationUrl"
    .ok { id, organization_id, name, description, capabilities,
          authentication := optValue j "authentication", endpoints, version,
          documentation_url, scopes := optValue j "scopes" }
  | _ => .error "expected an object for AgentCard"

/-- JsonCodec::decode_response (src/src/codec/json.rs lines 76-114): an
empty body is the Empty response before the operation is inspected;
otherwise serde parsing of the body (a failure of which is a Serialization
error) feeds the per-operation decoder, while the streaming and webhook
operations ignore the body entirely. -/
def JsonCodec.decode_response (body : Body) (operation : A2AOperation) :
    Except A2AError A2AResponse :=
  match body with
  | .empty => .ok .Empty
  | _ =>
    match operation with
    | .SendMessage _ _ _ _ | .GetTask _ | .CancelTask _ =>
      match body with
      | .json j =>
        match Task.deserialize j with
        | .ok task => .ok (.Task task)
        | .error e => .error (.Serialization e)
      | _ => .error (.Serialization "invalid JSON")
    | .ListTasks _ _ _ _ =>
      match body with
      | .json j =>
        match decodeTaskList j with
        | .ok (tasks, total, next_token) => .ok (.TaskList tasks total next_token)
        | .error e => .error (.Serialization e)
      | _ => .error (.Serialization "invalid JSON")
    | .DiscoverAgent =>
      match body with
      | .json j =>
        match AgentCard.deserialize j with
        | .ok card => .ok (.AgentCard card)
        | .error e => .error (.Serialization e)
      | _ => .error (.Serialization "invalid JSON")
    | .SubscribeTask _ => .ok .Empty
    | .RegisterWebhook _ _ _ => .ok .Empty

/-- JSON-RPC response envelope (src/src/codec/jsonrpc.rs,
`JsonRpcResponse`): jsonrpc and id required, result and error optional. -/
structure JsonRpcResponse where
  jsonrpc : String
  result : Option Json
  error : Option (Int × String × Option Json)
  id : Json

/-- JSON-RPC error object deserialization (code and message required, data
optional). -/
def decodeJsonRpcError (j : Json) : Except String (Int × String × Option Json) :=
  match j with
  | .obj _ => do
    let code ←
      match j.getField "code" with
      | some (.num n) => Except.ok n
      | some _ => .error "invalid type for field code"
      | none => .error "missing field code"
    let message ← reqString j "message"
    .ok (code, message, optValue j "data")
  | _ => .error "expected an object for JsonRpcError"

/-- JsonRpcResponse envelope deserialization. -/
def JsonRpcResponse.deserialize (j : Json) : Except String JsonRpcResponse :=
  match j with
  | .obj _ => do
    let jsonrpc ← reqString j "jsonrpc"
    let result := optValue j "result"
    let error ←
      match optValue j "error" with
      | some v => (decodeJsonRpcError v).map some
      | none => Except.ok none
    let id ←
      match j.getField "id" with
      | some v => Except.ok v
      | none => Except.error "missing field id"
    .ok { jsonrpc, result, error, id }
  | _ => .error "expected an object for JsonRpcResponse"

/-- JsonRpcCodec::decode_response (src/src/codec/jsonrpc.rs lines 112-142):
an empty body is the Empty response; otherwise the JSON-RPC envelope is
parsed (failure is a Protocol error), an error member becomes a Protocol
error carrying code and message, a missing result is a Protocol error, and
the result value is delegated to the inner JsonCodec (re-serialized result
bytes are never empty, hence the delegated body is its JSON value). -/
def JsonRpcCodec.decode_response (body : Body) (operation : A2AOperation) :
    Except A2AError A2AResponse :=
  match body with
  | .empty => .ok .Empty
  | .malformed =>
      .error (.Protocol "Failed to parse JSON-RPC response: invalid JSON")
  | .json j =>
    match JsonRpcResponse.deserialize j with
    | .error e => .error (.Protocol ("Failed to parse JSON-RPC response: " ++ e))
    | .ok resp =>
      match resp.error with
      | some (code, message, _) =>
          .error (.Protocol ("JSON-RPC error " ++ toString code ++ ": " ++ message))
      | none =>
        match resp.result with
        | none => .error (.Protocol "JSON-RPC response missing result field")
        | some result => JsonCodec.decode_response (.json result) operation

/-- State of the WebSocket multiplexer's shared data: the mutex-protected
pending-requests map (HashMap id to responder channel, modelled as an
association list whose keys the HashMap keeps unique) and a log of the
(id, result) deliveries made so far. -/
structure WsState where
  pending : List (String × Nat)
  delivered : List (String × Json)

/-- HashMap lookup on the pending map. -/
def lookupPending : List (String × Nat) → String → Option Nat
  | [], _ => none
  | (k, v) :: rest, id => if k = id then some v else lookupPending rest id

/-- HashMap::remove on the pending map: drop the entry with the given key
(the first one; keys are unique in the HashMap). -/
def eraseKey : List (String × Nat) → String → List (String × Nat)
  | [], _ => []
  | (k, v) :: rest, id => if k = id then rest else (k, v) :: eraseKey rest id

/-- WebSocketConnection::handle_response (src/src/transport/websocket.rs
lines 79-84): under the write lock, remove the responder registered for the
frame's id and deliver the result to it; a frame whose id has no registered
responder does nothing. -/
def handle_response (s : WsState) (id : String) (result : Json) : WsState :=
  match lookupPending s.pending id with
  | some _tx =>
      { pending := eraseKey s.pending id
        delivered := s.delivered ++ [(id, result)] }
  | none => s

/-- Receiver-task loop over a sequence of incoming frames, each carrying an
id and a result (src/src/transport/websocket.rs lines 139-169). -/
def processFrames (s : WsState) (frames : List (String × Json)) : WsState :=
  frames.foldl (fun acc f => handle_response acc f.1 f.2) s

/-- Number of deliveries made to the responder registered under an id. -/
def deliveredCount (s : WsState) (id : String) : Nat :=
  (s.delivered.filter (fun d => d.1 == id)).length

/-- AgentClient::poll_until_complete (src/src/client/agent.rs lines
281-303), fuel-indexed. `fetch i` is the outcome of the i-th GetTask call;
`attempts` is the loop counter of the source. The fuel bounds how many loop
iterations are unrolled; `none` means the loop was still running when the
fuel ran out. -/
def pollGo (fetch : Nat → Except A2AError Task) (max_attempts : Nat) :
    Nat → Nat → Option (Except A2AError Task)
  | _, 0 => none
  | attempts, fuel + 1 =>
    match fetch attempts with
    | .error e => some (.error e)
    | .ok task =>
      if task.is_terminal then some (.ok task)
      else if 0 < max_attempts ∧ max_attempts ≤ attempts + 1 then
        some (.error .Timeout)
      else pollGo fetch max_attempts (attempts + 1) fuel

/-- Entry point of the polling loop: attempts counter starts at 0. -/
def poll_until_complete (fetch : Nat → Except A2AError Task)
    (max_attempts fuel : Nat) : Option (Except A2AError Task) :=
  pollGo fetch max_attempts 0 fuel

/-- Concrete fixture: a one-part user message. -/
def sampleMessage : Message :=
  { role := .User, parts := [.Text "hi"], message_id := none,
    task_id := none, context_id := none, metadata := none, extensions := none }

/-- Concrete fixture: a task still being processed. -/
def workingTask : Task :=
  { id := "t-1", status := .Working, input := sampleMessage, output := none,
    error := none, created_at := "2024-01-01T00:00:00Z", updated_at := none,
    context_id := none, artifacts := [] }

/-- Concrete fixture: a completed task carrying one artifact. -/
def completedTask : Task :=
  { workingTask with
      status := .Completed,
      artifacts := [{ artifact_id := "a1", name := none, description := none,
                      parts := [.Text "out"], metadata := none,
                      extensions := [] }] }

/-- Concrete fixture: a failed task that carries no error. -/
def failedTaskNoError : Task :=
  { workingTask with status := .Failed }

/-- Concrete fixture: a fetch oracle that reports the task as working twice
and as completed from the third call on. -/
def sampleFetch : Nat → Except A2AError Task :=
  fun i => if i < 2 then .ok workingTask else .ok completedTask

/-! Theorems. -/

/-- C1: SseEvent::is_terminal does not recognise the state "cancelled".
The repo's own kebab-case serialization of TaskStatus::Cancelled emits
"cancelled" and TaskStatus::is_terminal counts Cancelled as terminal, yet
is_terminal on an SSE event whose payload state is "cancelled" returns
false, because the source matches the single-l spelling "canceled". The
claim (final or state in completed, failed, cancelled, rejected implies
terminal) fails at that input. -/
theorem sse_is_terminal_misses_cancelled_state :
    TaskStatus.toWire .Cancelled = "cancelled" ∧
    TaskStatus.is_terminal .Cancelled = true ∧
    SseEvent.is_terminal
      { kind := "status-update",
        payload := .obj [("state", .str "cancelled")],
        final_event := false } = false ∧
    SseEvent.is_terminal
      { kind := "status-update",
        payload := .obj [("state", .str "canceled")],
        final_event := false } = true :=
  ⟨rfl, rfl, rfl, rfl⟩

/-- C9: both codecs map an empty response body to the Empty response
without inspecting the operation. -/
theorem decode_empty_body_is_Empty (op : A2AOperation) :
    JsonCodec.decode_response .empty op = .ok .Empty ∧
    JsonRpcCodec.decode_response .empty op = .ok .Empty :=
  ⟨rfl, rfl⟩

/-- C10: the auth layer calls the inner service on a request whose context
auth field is unconditionally replaced by the configured credentials while
the operation and all other context fields are unchanged, and it forwards
the inner service's result unchanged. -/
theorem auth_call_overwrites_auth_only (credentials : AuthCredentials)
    (inner : A2ARequest → Except A2AError A2AResponse) (req : A2ARequest) :
    ∃ req2 : A2ARequest,
      AuthService.call credentials inner req = inner req2 ∧
      req2.operation = req.operation ∧
      req2.context.auth = some credentials ∧
      req2.context.agent_url = req.context.agent_url ∧
      req2.context.timeout = req.context.timeout ∧
      req2.context.metadata = req.context.metadata :=
  ⟨_, rfl, rfl, rfl, rfl, rfl, rfl⟩

/-- C7 counterexample: a JSON object carrying both the text and the data
discriminator keys does not fail to decode: serde(untagged) resolves it to
the Text variant, refuting the claim that multiple discriminator keys are a
Protocol error. -/
theorem message_part_multi_key_decodes :
    MessagePart.deserialize (.obj [("text", .str "a"), ("data", .num 1)])
      = .ok (.Text "a") :=
  rfl

/-- Helper: the Text variant attempt fails exactly when the text key does
not hold a string. -/
theorem tryTextVariant_error (fields : List (String × Json))
    (hn : (lookupField fields "text").bind Json.asStr = none) :
    tryTextVariant (.obj fields) = .error "no match for variant Text" := by
  simp only [tryTextVariant, Json.getField]
  cases h : lookupField fields "text" with
  | none => rfl
  | some v => cases v <;> simp_all [Json.asStr]

/-- Helper: the File variant attempt fails when no value under the file key
decodes as a FileContent (in particular when the key is absent). -/
theorem tryFileVariant_error (fields : List (String × Json))
    (hfile : ∀ fj f, lookupField fields "file" = some fj →
      FileContent.deserialize fj ≠ .ok f) :
    ∃ e, tryFileVariant (.obj fields) = .error e := by
  cases h : lookupField fields "file" with
  | none =>
    exact ⟨"no match for variant File",
      by simp [tryFileVariant, Json.getField, h]⟩
  | some v =>
    cases hd : FileContent.deserialize v with
    | ok f => exact absurd hd (hfile v f h)
    | error e => exact ⟨e, by simp [tryFileVariant, Json.getField, h, hd]⟩

/-- C7 amended: on a JSON object with more than one discriminator key,
decoding does not raise an ambiguity error: serde(untagged) tries the
variants in the declaration order text, file, data and returns the first
whose shape matches (text when it holds a string, else file when it holds a
valid FileContent, else data when present); it fails only when none of the
three matches, with the untagged no-match error (surfaced by the repo as a
Serialization error, never a Protocol one). -/
theorem message_part_multi_key_dispatch (fields : List (String × Json))
    (_hmulti : 2 ≤ (["text", "file", "data"].filter
        (fun k => (lookupField fields k).isSome)).length) :
    (∀ s, (lookupField fields "text").bind Json.asStr = some s →
      MessagePart.deserialize (.obj fields) = .ok (.Text s)) ∧
    ((lookupField fields "text").bind Json.asStr = none →
      ∀ fj f, lookupField fields "file" = some fj →
        FileContent.deserialize fj = .ok f →
        MessagePart.deserialize (.obj fields) = .ok (.File f)) ∧
    ((lookupField fields "text").bind Json.asStr = none →
      (∀ fj f, lookupField fields "file" = some fj →
        FileContent.deserialize fj ≠ .ok f) →
      ∀ d, lookupField fields "data" = some d →
        MessagePart.deserialize (.obj fields) = .ok (.Data d)) ∧
    ((lookupField fields "text").bind Json.asStr = none →
      (∀ fj f, lookupField fields "file" = some fj →
        FileContent.deserialize fj ≠ .ok f) →
      lookupField fields "data" = none →
      MessagePart.deserialize (.obj fields)
        = .error "data did not match any variant of untagged enum MessagePart") := by
  refine ⟨?_, ?_, ?_, ?_⟩
  · intro s hs
    have hlk : lookupField fields "text" = some (.str s) := by
      cases h : lookupField fields "text" with
      | none => rw [h] at hs; cases hs
      | some v => rw [h] at hs; cases v <;> simp_all [Json.asStr]
    simp [MessagePart.deserialize, tryTextVariant, Json.getField, hlk]
  · intro htext fj f hfj hok
    have ht := tryTextVariant_error fields htext
    simp [MessagePart.deserialize, ht, tryFileVariant, Json.getField, hfj, hok]
  · intro htext hfile d hd
    have ht := tryTextVariant_error fields htext
    obtain ⟨e, he⟩ := tryFileVariant_error fields hfile
    simp [MessagePart.deserialize, ht, he, tryDataVariant, Json.getField, hd]
  · intro htext hfile hdata
    have ht := tryTextVariant_error fields htext
    obtain ⟨e, he⟩ := tryFileVariant_error fields hfile
    simp [MessagePart.deserialize, ht, he, tryDataVariant, Json.getField, hdata]

/-- Witness for the amended C7 theorem: on the two-key object with text
"a" and file 2 the Text variant wins, and on the two-key object with text 1
and file 2 no variant matches, so decoding fails with the untagged no-match
error. -/
theorem message_part_multi_key_dispatch_witness :
    2 ≤ (["text", "file", "data"].filter
        (fun k => (lookupField [("text", Json.str "a"), ("file", Json.num 2)] k).isSome)).length ∧
    MessagePart.deserialize (.obj [("text", .str "a"), ("file", .num 2)])
      = .ok (.Text "a") ∧
    MessagePart.deserialize (.obj [("text", .num 1), ("file", .num 2)])
      = .error "data did not match any variant of untagged enum MessagePart" :=
  ⟨by decide,
    (message_part_multi_key_dispatch
      [("text", Json.str "a"), ("file", Json.num 2)] (by decide)).1 "a" rfl,
    (message_part_multi_key_dispatch
      [("text", Json.num 1), ("file", Json.num 2)] (by decide)).2.2.2 rfl
      (fun fj f hfj hok => by
        simp only [lookupField] at hfj
        simp only [show ("text" = "file") = False by simp,
          show ("file" = "file") = True by simp, if_true, if_false,
          Option.some.injEq] at hfj
        rw [← hfj] at hok
        simp [FileContent.deserialize] at hok)
      rfl⟩

/-- C3 counterexample: a 401 response whose body is not JSON is reported as
the fallback Transport error, not as an Auth error, refuting the claim that
every non-2xx response is mapped from its status code alone. -/
theorem status_mapping_needs_message_counterexample :
    parse_transport_response ⟨401, [], .malformed⟩
        JsonCodec.decode_response (.GetTask "t-1")
      = .error (.Transport "HTTP error: 401") ∧
    ¬ ∃ m, parse_transport_response ⟨401, [], .malformed⟩
        JsonCodec.decode_response (.GetTask "t-1")
      = .error (.Auth m) := by
  constructor
  · rfl
  · rintro ⟨m, h⟩
    have h2 : (Except.error (A2AError.Transport "HTTP error: 401") :
        Except A2AError A2AResponse) = .error (.Auth m) := h
    injection h2 with h3
    exact A2AError.noConfusion h3

/-- C3 amended: for every non-2xx transport response whose body is JSON
carrying a string message field, the protocol service maps the status code
to an error: 401 or 403 to Auth, 404 to TaskNotFound when the body carries
a taskId and otherwise to Protocol, 429 to RateLimitExceeded, and any other
status to Transport. -/
theorem handle_error_status_mapping (r : TransportResponse) (j : Json)
    (m : String) (op : A2AOperation)
    (decode : Body → A2AOperation → Except A2AError A2AResponse)
    (hns : r.is_success = false)
    (hb : r.body = .json j)
    (hm : (j.getField "message").bind Json.asStr = some m) :
    (r.status = 401 ∨ r.status = 403 →
      parse_transport_response r decode op = .error (.Auth m)) ∧
    (r.status = 404 →
      parse_transport_response r decode op =
        .error (match (j.getField "taskId").bind Json.asStr with
                | some tid => .TaskNotFound tid
                | none => .Protocol m)) ∧
    (r.status = 429 →
      parse_transport_response r decode op = .error .RateLimitExceeded) ∧
    (r.status ≠ 401 → r.status ≠ 403 → r.status ≠ 404 → r.status ≠ 429 →
      parse_transport_response r decode op =
        .error (.Transport ("HTTP " ++ toString r.status ++ ": " ++ m))) := by
  have hfull : parse_transport_response r decode op
      = .error (handle_error_response r) := by
    simp [parse_transport_response, hns]
  refine ⟨?_, ?_, ?_, ?_⟩
  · rintro (h1 | h1) <;>
      simp [hfull, handle_error_response, hb, hm, h1]
  · intro h1
    simp [hfull, handle_error_response, hb, hm, h1]
  · intro h1
    simp [hfull, handle_error_response, hb, hm, h1]
  · intro h1 h2 h3 h4
    simp [hfull, handle_error_response, hb, hm, h1, h2, h3, h4]

/-- Witness for the amended C3 theorem: a 403 with a JSON message body maps
to Auth. -/
theorem handle_error_status_mapping_witness :
    (⟨403, [], .json (.obj [("message", .str "denied")])⟩ :
        TransportResponse).is_success = false ∧
    parse_transport_response ⟨403, [], .json (.obj [("message", .str "denied")])⟩
        JsonCodec.decode_response (.GetTask "t-1")
      = .error (.Auth "denied") :=
  ⟨rfl,
    (handle_error_status_mapping
      ⟨403, [], .json (.obj [("message", .str "denied")])⟩
      (.obj [("message", .str "denied")]) "denied" (.GetTask "t-1")
      JsonCodec.decode_response rfl rfl rfl).1 (Or.inr rfl)⟩

/-- C8: every non-2xx transport response whose body is not a JSON object
carrying a string message field is reported as the fallback Transport error
with message HTTP error: status, whatever the status code. -/
theorem fallback_transport_error (r : TransportResponse) (op : A2AOperation)
    (decode : Body → A2AOperation → Except A2AError A2AResponse)
    (hns : r.is_success = false)
    (hb : r.body = .empty ∨ r.body = .malformed ∨
          ∃ j, r.body = .json j ∧ (j.getField "message").bind Json.asStr = none) :
    parse_transport_response r decode op =
      .error (.Transport ("HTTP error: " ++ toString r.status)) := by
  have hfull : parse_transport_response r decode op
      = .error (handle_error_response r) := by
    simp [parse_transport_response, hns]
  rcases hb with h | h | ⟨j, hj, hm⟩
  · simp [hfull, handle_error_response, h]
  · simp [hfull, handle_error_response, h]
  · simp [hfull, handle_error_response, hj, hm]

/-- Witness for C8: a 404 with a body that carries no message field falls
back to Transport rather than TaskNotFound or Protocol. -/
theorem fallback_transport_error_witness :
    (⟨404, [], .json (.obj [("taskId", .str "t-9")])⟩ :
        TransportResponse).is_success = false ∧
    parse_transport_response ⟨404, [], .json (.obj [("taskId", .str "t-9")])⟩
        JsonCodec.decode_response (.GetTask "t-9")
      = .error (.Transport "HTTP error: 404") :=
  ⟨rfl,
    fallback_transport_error ⟨404, [], .json (.obj [("taskId", .str "t-9")])⟩
      (.GetTask "t-9") JsonCodec.decode_response rfl
      (Or.inr (Or.inr ⟨.obj [("taskId", .str "t-9")], rfl, rfl⟩))⟩

/-- Helper: the per-part validation loop fails with a Validation error as
soon as it reaches a file part with an empty name or with neither content
source, whatever precedes it (earlier parts either pass or fail with their
own Validation error). -/
theorem validateParts_error_of_bad_file (l1 : List MessagePart)
    (f : FileContent) (l2 : List MessagePart)
    (hbad : f.name = "" ∨ (f.file_with_uri = none ∧ f.file_with_bytes = none)) :
    ∃ s, validateParts (l1 ++ .File f :: l2) = .error (.Validation s) := by
  induction l1 with
  | nil =>
    rcases hbad with h | ⟨h1, h2⟩
    · exact ⟨"File name cannot be empty", by simp [validateParts, h]⟩
    · by_cases hn : f.name = ""
      · exact ⟨"File name cannot be empty", by simp [validateParts, hn]⟩
      · exact ⟨"File must have either URI or bytes content",
          by simp [validateParts, hn, h1, h2]⟩
  | cons p l1 ih =>
    obtain ⟨s, hs⟩ := ih
    cases p with
    | Text text =>
      by_cases ht : text = ""
      · exact ⟨"Text part cannot be empty", by simp [validateParts, ht]⟩
      · exact ⟨s, by simp [validateParts, ht, hs]⟩
    | File g =>
      by_cases hn : g.name = ""
      · exact ⟨"File name cannot be empty", by simp [validateParts, hn]⟩
      · by_cases hu : (g.file_with_uri.isNone && g.file_with_bytes.isNone) = true
        · exact ⟨"File must have either URI or bytes content",
            by simp [validateParts, hn, hu]⟩
        · exact ⟨s, by simp [validateParts, hn, hu, hs]⟩
    | Data d =>
      exact ⟨s, by simp [validateParts, hs]⟩

/-- C4 amended: request validation rejects with a Validation error any
SendMessage whose message contains a file part with an empty name or with
neither file_with_uri nor file_with_bytes present; a file part carrying
both sources is not rejected (see the counterexample). -/
theorem validate_request_rejects_bad_file_part (message : Message)
    (stream : Bool) (cid tid : Option String) (context : RequestContext)
    (f : FileContent) (l1 l2 : List MessagePart)
    (hp : message.parts = l1 ++ .File f :: l2)
    (hbad : f.name = "" ∨ (f.file_with_uri = none ∧ f.file_with_bytes = none)) :
    ∃ s, validate_request ⟨.SendMessage message stream cid tid, context⟩
      = .error (.Validation s) := by
  obtain ⟨s, hs⟩ := validateParts_error_of_bad_file l1 f l2 hbad
  refine ⟨s, ?_⟩
  have hne : message.parts.isEmpty = false := by
    rw [hp]; cases l1 <;> rfl
  simp [validate_request, validate_request_operation, hne, hp, hs]

/-- Witness for the amended C4 theorem: a file part whose name is empty is
rejected. -/
theorem validate_request_rejects_bad_file_part_witness :
    ({ role := .User,
       parts := [.File { media_type := none, name := "",
                         file_with_uri := some "u", file_with_bytes := none }],
       message_id := none, task_id := none, context_id := none,
       metadata := none, extensions := none } : Message).parts
      = [] ++ .File { media_type := none, name := "",
                      file_with_uri := some "u", file_with_bytes := none } :: [] ∧
    ∃ s, validate_request
      ⟨.SendMessage
          { role := .User,
            parts := [.File { media_type := none, name := "",
                              file_with_uri := some "u", file_with_bytes := none }],
            message_id := none, task_id := none, context_id := none,
            metadata := none, extensions := none }
          false none none,
        { agent_url := "https://example.com", auth := none,
          timeout := none, metadata := [] }⟩
      = .error (.Validation s) :=
  ⟨rfl,
    validate_request_rejects_bad_file_part
      { role := .User,
        parts := [.File { media_type := none, name := "",
                          file_with_uri := some "u", file_with_bytes := none }],
        message_id := none, task_id := none, context_id := none,
        metadata := none, extensions := none }
      false none none
      { agent_url := "https://example.com", auth := none,
        timeout := none, metadata := [] }
      { media_type := none, name := "",
        file_with_uri := some "u", file_with_bytes := none }
      [] [] rfl (Or.inl rfl)⟩

/-- C4 counterexample: a file part carrying both file_with_uri and
file_with_bytes passes request validation, refuting the exactly-one
requirement of the claim (the source only rejects the neither-present
case). -/
theorem file_part_both_sources_accepted :
    validate_request
      ⟨.SendMessage
          { role := .User,
            parts := [.File { media_type := none, name := "f",
                              file_with_uri := some "u",
                              file_with_bytes := some "b" }],
            message_id := none, task_id := none, context_id := none,
            metadata := none, extensions := none }
          false none none,
        { agent_url := "https://example.com", auth := none,
          timeout := none, metadata := [] }⟩ = .ok () :=
  rfl

/-- C5: a Task response fails response validation with a Validation error
exactly when its id is empty, or its input has no parts, or it is completed
with neither artifacts nor an error, or it is failed without an error; all
other Task responses validate successfully. -/
theorem validate_task_response_characterization (t : Task) :
    ((∃ s, validate_response (.Task t) = .error (.Validation s)) ↔
      (t.id = "" ∨ t.input.parts = [] ∨
        (t.status = .Completed ∧ t.artifacts = [] ∧ t.error = none) ∨
        (t.status = .Failed ∧ t.error = none))) ∧
    (validate_response (.Task t) = .ok () ↔
      ¬ (t.id = "" ∨ t.input.parts = [] ∨
        (t.status = .Completed ∧ t.artifacts = [] ∧ t.error = none) ∨
        (t.status = .Failed ∧ t.error = none))) := by
  have hok : validate_response (.Task t) = .ok () ↔
      ¬ (t.id = "" ∨ t.input.parts = [] ∨
        (t.status = .Completed ∧ t.artifacts = [] ∧ t.error = none) ∨
        (t.status = .Failed ∧ t.error = none)) := by
    simp only [validate_response]
    split_ifs with h1 h2 h3 h4 <;>
      simp_all [List.isEmpty_iff, Option.isNone_iff_eq_none, not_or]
  have hshape : validate_response (.Task t) = .ok () ∨
      ∃ s, validate_response (.Task t) = .error (.Validation s) := by
    simp only [validate_response]
    split_ifs <;> simp
  refine ⟨⟨?_, ?_⟩, hok⟩
  · rintro ⟨s, hs⟩
    by_contra hbad
    rw [hok.mpr hbad] at hs
    exact Except.noConfusion hs
  · intro hbad
    rcases hshape with h | h
    · exact absurd (hok.mp h) (not_not.mpr hbad)
    · exact h

/-- Helper: keys of the pending map after a removal are among the original
keys. -/
theorem mem_keys_of_mem_keys_eraseKey {p : List (String × Nat)} {id x : String}
    (h : x ∈ (eraseKey p id).map Prod.fst) : x ∈ p.map Prod.fst := by
  induction p with
  | nil => simp [eraseKey] at h
  | cons e rest ih =>
    obtain ⟨k, v⟩ := e
    by_cases hk : k = id
    · simp only [eraseKey, if_pos hk] at h
      simp only [List.map_cons, List.mem_cons]
      exact Or.inr h
    · simp only [eraseKey, if_neg hk, List.map_cons, List.mem_cons] at h ⊢
      rcases h with h | h
      · exact Or.inl h
      · exact Or.inr (ih h)

/-- Helper: removal preserves distinctness of the pending-map keys. -/
theorem nodup_keys_eraseKey {p : List (String × Nat)} {id : String}
    (h : (p.map Prod.fst).Nodup) : ((eraseKey p id).map Prod.fst).Nodup := by
  induction p with
  | nil => simp [eraseKey]
  | cons e rest ih =>
    obtain ⟨k, v⟩ := e
    simp only [List.map_cons, List.nodup_cons] at h
    obtain ⟨hk, hrest⟩ := h
    by_cases hki : k = id
    · simpa [eraseKey, hki] using hrest
    · simp only [eraseKey, if_neg hki, List.map_cons, List.nodup_cons]
      exact ⟨fun hmem => hk (mem_keys_of_mem_keys_eraseKey hmem), ih hrest⟩

/-- Helper: an id that is not a key of the pending map has no responder. -/
theorem lookupPending_eq_none_of_not_mem {p : List (String × Nat)} {id : String}
    (h : id ∉ p.map Prod.fst) : lookupPending p id = none := by
  induction p with
  | nil => rfl
  | cons e rest ih =>
    obtain ⟨k, v⟩ := e
    simp only [List.map_cons, List.mem_cons, not_or] at h
    have hk : ¬ (k = id) := fun hh => h.1 hh.symm
    simp [lookupPending, hk, ih h.2]

/-- Helper: after its entry is removed from a pending map with distinct
keys, an id has no responder any more. -/
theorem lookupPending_eraseKey_self {p : List (String × Nat)} {id : String}
    (h : (p.map Prod.fst).Nodup) :
    lookupPending (eraseKey p id) id = none := by
  induction p with
  | nil => rfl
  | cons e rest ih =>
    obtain ⟨k, v⟩ := e
    simp only [List.map_cons, List.nodup_cons] at h
    by_cases hk : k = id
    · subst hk
      simp only [eraseKey, if_pos rfl]
      exact lookupPending_eq_none_of_not_mem h.1
    · simp only [eraseKey, if_neg hk, lookupPending, if_neg hk]
      exact ih h.2

/-- Helper: removing some other entry cannot create a responder for an id
that had none. -/
theorem lookupPending_eraseKey_other {p : List (String × Nat)} {k id : String}
    (h : lookupPending p id = none) :
    lookupPending (eraseKey p k) id = none := by
  induction p with
  | nil => rfl
  | cons e rest ih =>
    obtain ⟨k2, v⟩ := e
    by_cases h2 : k2 = id
    · simp [lookupPending, h2] at h
    · by_cases h3 : k2 = k
      · simp only [eraseKey, if_pos h3]
        simpa [lookupPending, h2] using h
      · simp only [lookupPending, if_neg h2] at h
        simp only [eraseKey, if_neg h3, lookupPending, if_neg h2]
        exact ih h

/-- Helper: once an id has no registered responder, later frames never
deliver to it. -/
theorem deliveredCount_frozen {id : String} (frames : List (String × Json)) :
    ∀ s : WsState, lookupPending s.pending id = none →
      deliveredCount (processFrames s frames) id = deliveredCount s id := by
  induction frames with
  | nil => intro s _; rfl
  | cons f rest ih =>
    intro s h
    obtain ⟨fid, v⟩ := f
    show deliveredCount (processFrames (handle_response s fid v) rest) id = _
    by_cases hf : lookupPending s.pending fid = none
    · rw [show handle_response s fid v = s by simp [handle_response, hf]]
      exact ih s h
    · obtain ⟨tx, htx⟩ := Option.ne_none_iff_exists'.mp hf
      have hfid : ¬ (fid = id) := by
        rintro rfl
        rw [htx] at h
        exact Option.noConfusion h
      have h2 : lookupPending (handle_response s fid v).pending id = none := by
        simp only [handle_response, htx]
        exact lookupPending_eraseKey_other h
      rw [ih _ h2]
      simp [handle_response, htx, deliveredCount, List.filter_append, hfid]

/-- Helper: over any frame sequence, the responder registered under an id
in a pending map with distinct keys receives at most one delivery, because
the delivery removes its entry. -/
theorem deliveredCount_le (frames : List (String × Json)) :
    ∀ s : WsState, (s.pending.map Prod.fst).Nodup → ∀ id : String,
      deliveredCount (processFrames s frames) id ≤ deliveredCount s id + 1 := by
  induction frames with
  | nil => intro s _ id; exact Nat.le_succ _
  | cons f rest ih =>
    intro s hnd id
    obtain ⟨fid, v⟩ := f
    show deliveredCount (processFrames (handle_response s fid v) rest) id ≤ _
    by_cases hf : lookupPending s.pending fid = none
    · rw [show handle_response s fid v = s by simp [handle_response, hf]]
      exact ih s hnd id
    · obtain ⟨tx, htx⟩ := Option.ne_none_iff_exists'.mp hf
      have hnd2 : ((handle_response s fid v).pending.map Prod.fst).Nodup := by
        simp only [handle_response, htx]
        exact nodup_keys_eraseKey hnd
      by_cases hfid : fid = id
      · subst hfid
        have h0 : lookupPending (handle_response s fid v).pending fid = none := by
          simp only [handle_response, htx]
          exact lookupPending_eraseKey_self hnd
        rw [deliveredCount_frozen rest _ h0]
        have : deliveredCount (handle_response s fid v) fid
            = deliveredCount s fid + 1 := by
          simp [handle_response, htx, deliveredCount, List.filter_append]
        rw [this]
      · have heq : deliveredCount (handle_response s fid v) id
            = deliveredCount s id := by
          simp [handle_response, htx, deliveredCount, List.filter_append, hfid]
        calc deliveredCount (processFrames (handle_response s fid v) rest) id
            ≤ deliveredCount (handle_response s fid v) id + 1 := ih _ hnd2 id
          _ = deliveredCount s id + 1 := by rw [heq]

/-- C2: over any sequence of frames handled by the multiplexer starting
from a pending map whose keys are distinct (the HashMap invariant), the
responder registered under an id receives at most one delivery, and a frame
carrying an id with no registered responder leaves the state (pending map
and delivery log) unchanged. -/
theorem ws_at_most_one_delivery (s : WsState) (frames : List (String × Json))
    (id : String) (v : Json)
    (hnd : (s.pending.map Prod.fst).Nodup) :
    deliveredCount (processFrames s frames) id ≤ deliveredCount s id + 1 ∧
    (lookupPending s.pending id = none → handle_response s id v = s) := by
  constructor
  · exact deliveredCount_le frames s hnd id
  · intro h
    simp [handle_response, h]

/-- Witness for C2: one registered id, three frames two of which carry that
id; exactly one delivery happens and the unregistered id is a no-op. -/
theorem ws_at_most_one_delivery_witness :
    ((⟨[("a", 1)], []⟩ : WsState).pending.map Prod.fst).Nodup ∧
    deliveredCount
      (processFrames ⟨[("a", 1)], []⟩ [("a", .null), ("a", .null), ("b", .null)])
      "a" ≤ deliveredCount (⟨[("a", 1)], []⟩ : WsState) "a" + 1 ∧
    (lookupPending (⟨[("a", 1)], []⟩ : WsState).pending "b" = none →
      handle_response ⟨[("a", 1)], []⟩ "b" .null = ⟨[("a", 1)], []⟩) := by
  refine ⟨by simp, ?_, ?_⟩
  · exact (ws_at_most_one_delivery ⟨[("a", 1)], []⟩
      [("a", .null), ("a", .null), ("b", .null)] "a" .null (by simp)).1
  · exact (ws_at_most_one_delivery ⟨[("a", 1)], []⟩
      [("a", .null), ("a", .null), ("b", .null)] "b" .null (by simp)).2

/-- Witness for C5: a failed task without an error is rejected by response
validation. -/
theorem validate_task_response_characterization_witness :
    ∃ s, validate_response (.Task failedTaskNoError) = .error (.Validation s) :=
  (validate_task_response_characterization failedTaskNoError).1.mpr
    (Or.inr (Or.inr (Or.inr ⟨rfl, rfl⟩)))

/-- Helper: the polling loop returns the first terminal task it fetches, as
long as neither the attempts cap nor the fuel runs out first. -/
theorem pollGo_reaches_terminal (fetch : Nat → Except A2AError Task)
    (max_attempts : Nat) (t : Task) :
    ∀ (j : Nat), ∀ (a fuel : Nat),
      (∀ i, i < j → ∃ u, fetch (a + i) = .ok u ∧ u.is_terminal = false) →
      fetch (a + j) = .ok t → t.is_terminal = true →
      (max_attempts = 0 ∨ a + j < max_attempts) → j + 1 ≤ fuel →
      pollGo fetch max_attempts a fuel = some (.ok t) := by
  intro j
  induction j with
  | zero =>
    intro a fuel _ hf ht _ hfuel
    match fuel, hfuel with
    | fuel + 1, _ =>
      rw [show a + 0 = a from rfl] at hf
      simp only [pollGo]
      rw [hf]
      simp [ht]
  | succ j ih =>
    intro a fuel h0 hf ht hmax hfuel
    match fuel, hfuel with
    | fuel + 1, hfuel =>
      obtain ⟨u, hu, hnt⟩ := h0 0 (Nat.succ_pos j)
      rw [show a + 0 = a from rfl] at hu
      simp only [pollGo]
      rw [hu]
      have hcond : ¬ (0 < max_attempts ∧ max_attempts ≤ a + 1) := by
        rcases hmax with h | h <;> omega
      simp only [hnt, Bool.false_eq_true, if_false, hcond, if_neg hcond]
      apply ih (a + 1) fuel
      · intro i hi
        have hh := h0 (i + 1) (by omega)
        rwa [show a + (i + 1) = a + 1 + i by omega] at hh
      · rwa [show a + 1 + j = a + (j + 1) by omega]
      · exact ht
      · rcases hmax with h | h
        · exact Or.inl h
        · exact Or.inr (by omega)
      · omega

/-- Helper: with a positive attempts cap and only non-terminal fetches, the
polling loop returns Timeout exactly when the cap is reached. -/
theorem pollGo_timeout (fetch : Nat → Except A2AError Task)
    (max_attempts : Nat) :
    ∀ (fuel a : Nat), a < max_attempts →
      (∀ i, a ≤ i → i < max_attempts →
        ∃ u, fetch i = .ok u ∧ u.is_terminal = false) →
      max_attempts - a ≤ fuel →
      pollGo fetch max_attempts a fuel = some (.error .Timeout) := by
  intro fuel
  induction fuel with
  | zero => intro a ha _ hle; omega
  | succ fuel ih =>
    intro a ha h hle
    obtain ⟨u, hu, hnt⟩ := h a le_rfl ha
    simp only [pollGo]
    rw [hu]
    simp only [hnt, Bool.false_eq_true, if_false]
    by_cases hend : max_attempts ≤ a + 1
    · have hc : 0 < max_attempts ∧ max_attempts ≤ a + 1 := ⟨by omega, hend⟩
      simp [hc]
    · have hcond : ¬ (0 < max_attempts ∧ max_attempts ≤ a + 1) :=
        fun hc => hend hc.2
      simp only [hcond, if_neg hcond]
      exact ih (a + 1) (by omega) (fun i h1 h2 => h i (by omega) h2) (by omega)

/-- Helper: with an unlimited cap the polling loop itself never produces
Timeout; any Timeout outcome came from a fetch. -/
theorem pollGo_no_timeout_unlimited (fetch : Nat → Except A2AError Task) :
    ∀ (fuel a : Nat),
      pollGo fetch 0 a fuel = some (.error .Timeout) →
      ∃ i, fetch i = .error .Timeout := by
  intro fuel
  induction fuel with
  | zero => intro a h; exact absurd h (by simp [pollGo])
  | succ fuel ih =>
    intro a h
    simp only [pollGo] at h
    cases hf : fetch a with
    | error e =>
      rw [hf] at h
      simp only [Option.some.injEq, Except.error.injEq] at h
      exact ⟨a, by rw [hf, h]⟩
    | ok task =>
      rw [hf] at h
      by_cases ht : task.is_terminal
      · simp [ht] at h
      · have hcond : ¬ ((0:Nat) < 0 ∧ (0:Nat) ≤ a + 1) := fun hc => by omega
        simp only [ht, Bool.false_eq_true, if_false, hcond, if_neg hcond] at h
        exact ih (a + 1) h

/-- C6: the polling loop fetches the task repeatedly; it returns the task
of the first terminal fetch (provided the cap, when positive, has not been
reached before it); with a positive cap and only non-terminal fetches it
returns Timeout after exactly max_attempts fetches; and with cap 0 it never
produces a Timeout of its own. -/
theorem poll_until_complete_spec (fetch : Nat → Except A2AError Task)
    (max_attempts fuel : Nat) (t : Task) (j : Nat) :
    ((∀ i, i < j → ∃ u, fetch i = .ok u ∧ u.is_terminal = false) →
      fetch j = .ok t → t.is_terminal = true →
      (max_attempts = 0 ∨ j < max_attempts) → j + 1 ≤ fuel →
      poll_until_complete fetch max_attempts fuel = some (.ok t)) ∧
    (0 < max_attempts →
      (∀ i, i < max_attempts → ∃ u, fetch i = .ok u ∧ u.is_terminal = false) →
      max_attempts ≤ fuel →
      poll_until_complete fetch max_attempts fuel = some (.error .Timeout)) ∧
    (max_attempts = 0 →
      poll_until_complete fetch max_attempts fuel = some (.error .Timeout) →
      ∃ i, fetch i = .error .Timeout) := by
  refine ⟨?_, ?_, ?_⟩
  · intro h0 hf ht hmax hfuel
    exact pollGo_reaches_terminal fetch max_attempts t j 0 fuel
      (fun i hi => by simpa using h0 i hi) (by simpa using hf) ht
      (by simpa using hmax) hfuel
  · intro hpos h hfuel
    exact pollGo_timeout fetch max_attempts fuel 0 hpos
      (fun i _ h2 => h i h2) (by omega)
  · intro h0 ht
    subst h0
    exact pollGo_no_timeout_unlimited fetch fuel 0 ht

/-- Witness for C6: the sample oracle (working, working, completed) makes
the loop return the completed task on the third fetch with an unlimited
cap, and an always-working oracle with cap 4 times out. -/
theorem poll_until_complete_spec_witness :
    poll_until_complete sampleFetch 0 3 = some (.ok completedTask) ∧
    poll_until_complete (fun _ => .ok workingTask) 4 4
      = some (.error .Timeout) := by
  constructor
  · exact (poll_until_complete_spec sampleFetch 0 3 completedTask 2).1
      (fun i hi => ⟨workingTask, by simp [sampleFetch, hi], rfl⟩)
      (by simp [sampleFetch]) rfl (Or.inl rfl) (by omega)
  · exact (poll_until_complete_spec (fun _ => .ok workingTask) 4 4
      workingTask 0).2.1 (by omega)
      (fun i _ => ⟨workingTask, rfl, rfl⟩) (by omega)

end A2A
